import Mathlib

/-!
Verification of the migration orchestration engine (Oracle → PostgreSQL data
migrator).  The definitions below are a shallow embedding of the TypeScript
source: pure functions become Lean functions, the effectful parts (database
queries, the checkpoint file) become explicit data passed in and out, and
fallible operations return `Except`.  Each section names the source file and
function it embeds.
-/

namespace Migrator

/-! ## JavaScript value model

Source rows, cursor values and checkpoint payloads are dynamically typed
(`any`) in the source.  `JSValue` models the values that actually flow
through the engine: `undefined`, `null`, numbers and strings.  `truthy`
mirrors JavaScript truthiness for these values (`undefined`, `null`, `0`
and `""` are falsy), and `jsOr` mirrors the `||` operator. -/

inductive JSValue where
  | undefined
  | null
  | num (n : Int)
  | str (s : String)
deriving DecidableEq

def truthy : JSValue → Bool
  | .undefined => false
  | .null => false
  | .num n => n != 0
  | .str s => s ≠ ""

/-- JavaScript `a || b`: `a` when `a` is truthy, otherwise `b`. -/
def jsOr (a b : JSValue) : JSValue :=
  if truthy a then a else b

/-- A row as delivered by the source driver: an object, i.e. a finite map
from property names to values.  Property lookup on a missing key yields
`undefined`, as in JavaScript. -/
abbrev Row : Type := List (String × JSValue)

def rowGet (r : Row) (k : String) : JSValue :=
  match r.find? (fun e => e.1 == k) with
  | some e => e.2
  | none => .undefined

/-- Association-list update mirroring JavaScript property assignment
`obj[k] = v`: replace the value when the key is present, append otherwise. -/
def alistSet {β : Type} : List (String × β) → String → β → List (String × β)
  | [], k, v => [(k, v)]
  | (k', v') :: rest, k, v =>
    if k' == k then (k', v) :: rest else (k', v') :: alistSet rest k v

def alistGet {β : Type} (m : List (String × β)) (k : String) : Option β :=
  match m.find? (fun e => e.1 == k) with
  | some e => some e.2
  | none => none

/-! ## Pagination Strategy Engine

Embeds `src/unnamed/part_013` (the repository's `database/pagination.ts`):
`buildPaginatedQuery`, `buildRownumQuery`, `buildOffsetQuery`,
`buildCursorQuery`, `extractCursorValue`, `determineBestPaginationStrategy`. -/

inductive PaginationStrategy where
  | rownum
  | offset
  | cursor
deriving DecidableEq

/-- JavaScript `s.includes(pat)` for a non-empty pattern. -/
def strIncludes (s pat : String) : Bool :=
  (s.splitOn pat).length ≥ 2

/-- The `PaginationContext` record of `types/index.ts`, as consumed by
`buildPaginatedQuery`.  Optional fields are `Option`s. -/
structure PaginationContext where
  strategy : PaginationStrategy
  offset : Nat
  batchSize : Nat
  cursorColumn : Option String
  lastCursorValue : JSValue
  orderByClause : Option String
deriving DecidableEq

/-- Template-literal interpolation `${v}` of a `JSValue`. -/
def jsInterp : JSValue → String
  | .undefined => "undefined"
  | .null => "null"
  | .num n => toString n
  | .str s => s

/-- `buildRownumQuery` (part_013, lines 229–241): wraps the base query in the
double `ROWNUM` subquery, rendered exactly as the template literal. -/
def buildRownumQuery (baseQuery : String) (offset batchSize : Nat) : String :=
  "\n        SELECT * FROM (\n            SELECT a.*, ROWNUM rnum FROM (\n                "
    ++ baseQuery
    ++ "\n            ) a WHERE ROWNUM <= " ++ toString (offset + batchSize)
    ++ "\n        ) WHERE rnum > " ++ toString offset
    ++ "\n    "

/-- `buildOffsetQuery` (part_013, lines 244–259).  `orderByClause ? ... : ...`
is a truthiness test, so an empty ordering clause is treated as absent. -/
def buildOffsetQuery (baseQuery : String) (offset batchSize : Nat)
    (orderByClause : Option String) : String :=
  let queryWithOrder :=
    match orderByClause with
    | some s => if s = "" then baseQuery else baseQuery ++ " " ++ s
    | none => baseQuery
  "\n        " ++ queryWithOrder
    ++ "\n        OFFSET " ++ toString offset ++ " ROWS\n        FETCH NEXT "
    ++ toString batchSize ++ " ROWS ONLY\n    "

/-- The `typeof lastCursorValue === "string" ? `'${v}'` : v` formatting in
`buildCursorQuery`. -/
def formatCursorValue : JSValue → String
  | .str s => "'" ++ s ++ "'"
  | v => jsInterp v

/-- `buildCursorQuery` (part_013, lines 262–293), translated clause by
clause: the `whereClause` is empty unless `lastCursorValue` is defined and
non-null; `finalOrderBy` is `orderByClause || defaultOrder`; the base query
gets ` WHERE 1=1` appended when it contains no `WHERE`. -/
def buildCursorQuery (baseQuery : String) (batchSize : Nat) (cursorColumn : String)
    (lastCursorValue : JSValue) (orderByClause : Option String) : String :=
  let whereClause :=
    if lastCursorValue = .undefined ∨ lastCursorValue = .null then ""
    else " AND " ++ cursorColumn ++ " > " ++ formatCursorValue lastCursorValue
  let defaultOrder := "ORDER BY " ++ cursorColumn ++ " ASC"
  let finalOrderBy :=
    match orderByClause with
    | some s => if s = "" then defaultOrder else s
    | none => defaultOrder
  let queryWithCursor :=
    if strIncludes baseQuery "WHERE" then baseQuery ++ whereClause
    else baseQuery ++ " WHERE 1=1" ++ whereClause
  "\n        " ++ queryWithCursor ++ "\n        " ++ finalOrderBy
    ++ "\n        FETCH FIRST " ++ toString batchSize ++ " ROWS ONLY\n    "

/-- `buildPaginatedQuery` (part_013, lines 194–226).  The strategy is a
closed variant, so the `default: throw` arm of the `switch` is unreachable.
The non-null assertion `cursorColumn!` interpolates `undefined` when the
column is absent, as JavaScript string interpolation would. -/
def buildPaginatedQuery (baseQuery : String) (context : PaginationContext) : String :=
  match context.strategy with
  | .rownum => buildRownumQuery baseQuery context.offset context.batchSize
  | .offset => buildOffsetQuery baseQuery context.offset context.batchSize context.orderByClause
  | .cursor =>
    buildCursorQuery baseQuery context.batchSize (context.cursorColumn.getD "undefined")
      context.lastCursorValue context.orderByClause

/-- JavaScript `toLowerCase()` over the column names in play (ASCII). -/
def toLowerStr (s : String) : String :=
  ⟨s.data.map Char.toLower⟩

/-- JavaScript `toUpperCase()` over the column names in play (ASCII). -/
def toUpperStr (s : String) : String :=
  ⟨s.data.map Char.toUpper⟩

/-- `extractCursorValue` (part_013, lines 295–306): `null` for an empty
page, otherwise `lastRow[col] || lastRow[col.toLowerCase()] ||
lastRow[col.toUpperCase()]` on the last row. -/
def extractCursorValue (rows : List Row) (cursorColumn : String) : JSValue :=
  match rows.getLast? with
  | none => .null
  | some lastRow =>
    jsOr (jsOr (rowGet lastRow cursorColumn) (rowGet lastRow (toLowerStr cursorColumn)))
      (rowGet lastRow (toUpperStr cursorColumn))

/-- `determineBestPaginationStrategy` (part_013, lines 308–324). -/
def determineBestPaginationStrategy (totalEstimatedRows : Int)
    (hasIndexOnOrderColumn : Bool) : PaginationStrategy :=
  if totalEstimatedRows > 1000000 ∧ hasIndexOnOrderColumn then .cursor
  else if totalEstimatedRows > 100000 then .offset
  else .rownum

/-! ## Checkpoint Store

Embeds `src/src/data/checkpoint.ts`.  The backing file is modelled by
`FileContent`: missing, present-but-unparseable, or a parsed
`CheckpointData` document.  `readAndParse` models
`fs.readFile` + `JSON.parse`, the two operations that can throw inside the
store's `try` blocks; filesystem writes are modelled by returning the new
file content.  Timestamps (`new Date().toISOString()`) are supplied as an
explicit `now` argument. -/

/-- One entry of `CheckpointData.tableProgress`. -/
structure TableProgressEntry where
  lastProcessedId : Int
  totalProcessed : Int
  isComplete : Bool
  lastCursorValue : JSValue
  lastProcessedRecord : JSValue
deriving DecidableEq

/-- The persisted checkpoint document (`CheckpointData` in checkpoint.ts).
`tableProgress` is an optional field of the JSON document. -/
structure CheckpointData where
  lastProcessedId : Int
  totalProcessed : Int
  timestamp : String
  tableProgress : Option (List (String × TableProgressEntry))
deriving DecidableEq

inductive FileContent where
  | missing
  | malformed
  | valid (d : CheckpointData)
deriving DecidableEq

/-- `fs.readFile` followed by `JSON.parse`: throws on a missing or
malformed file, yields the parsed document otherwise. -/
def readAndParse : FileContent → Except String CheckpointData
  | .missing => .error "ENOENT"
  | .malformed => .error "SyntaxError: Unexpected token in JSON"
  | .valid d => .ok d

/-- The fresh document created when the checkpoint file is absent or
invalid: zero global progress and an empty per-table map. -/
def freshCheckpoint (now : String) : CheckpointData :=
  { lastProcessedId := 0, totalProcessed := 0, timestamp := now, tableProgress := some [] }

/-- `loadCheckpoint` (checkpoint.ts, lines 87–122) with the `try`/`catch`
made explicit in the `Except` monad: the body reads and parses the file and
returns the parsed document; the handler returns a fresh empty checkpoint.
`.error` would model an exception escaping to the caller. -/
def loadCheckpointE (file : FileContent) (now : String) : Except String CheckpointData :=
  tryCatch
    (do
      let d ← readAndParse file
      pure d)
    (fun _ => pure (freshCheckpoint now))

/-- The (total) result of `loadCheckpoint`. -/
def loadCheckpoint (file : FileContent) (now : String) : CheckpointData :=
  match readAndParse file with
  | .ok d => d
  | .error _ => freshCheckpoint now

/-- The document written by `saveCheckpoint` (checkpoint.ts, lines 24–82):
read the current document or start fresh; with a `tableId`, replace that
table's entry by one with the given counters, `isComplete: false`, no
`lastCursorValue` and the given `lastProcessedRecord`; without a `tableId`,
update the two global counters; finally refresh the timestamp. -/
def saveCheckpointDoc (file : FileContent) (lastProcessedId totalProcessed : Int)
    (tableId : Option String) (lastProcessedRecord : JSValue) (now : String) :
    CheckpointData :=
  let checkpointData :=
    match readAndParse file with
    | .ok d => d
    | .error _ => freshCheckpoint now
  let checkpointData :=
    match tableId with
    | some t =>
      let m := checkpointData.tableProgress.getD []
      { checkpointData with
          tableProgress := some (alistSet m t
            { lastProcessedId := lastProcessedId
              totalProcessed := totalProcessed
              isComplete := false
              lastCursorValue := .undefined
              lastProcessedRecord := lastProcessedRecord }) }
    | none =>
      { checkpointData with
          lastProcessedId := lastProcessedId
          totalProcessed := totalProcessed }
  { checkpointData with timestamp := now }

/-- `saveCheckpoint`: writes the updated document back to the same path.
(The outer `catch` only swallows I/O errors of the write itself, which the
file-content model does not produce.) -/
def saveCheckpoint (file : FileContent) (lastProcessedId totalProcessed : Int)
    (tableId : Option String) (lastProcessedRecord : JSValue) (now : String) :
    FileContent :=
  .valid (saveCheckpointDoc file lastProcessedId totalProcessed tableId
    lastProcessedRecord now)

/-- `markTableComplete` (checkpoint.ts, lines 151–184): if the file cannot
be read there is nothing to mark; if the table has no entry the document is
not written; otherwise the entry's `isComplete` is set and its total
updated. -/
def markTableComplete (file : FileContent) (tableId : String)
    (totalProcessed : Int) (now : String) : FileContent :=
  match readAndParse file with
  | .error _ => file
  | .ok d =>
    let m := d.tableProgress.getD []
    match alistGet m tableId with
    | none => file
    | some e =>
      .valid { d with
        tableProgress := some (alistSet m tableId
          { e with isComplete := true, totalProcessed := totalProcessed })
        timestamp := now }

/-- `getTableProgress` (checkpoint.ts, lines 203–227): load the checkpoint
and return the table's counters and last record, or `none`. -/
def getTableProgress (file : FileContent) (now : String) (tableId : String) :
    Option (Int × Int × JSValue) :=
  let checkpoint := loadCheckpoint file now
  match checkpoint.tableProgress with
  | none => none
  | some m =>
    match alistGet m tableId with
    | none => none
    | some p => some (p.lastProcessedId, p.totalProcessed, p.lastProcessedRecord)

/-! ## Migration tasks and the batch loop

Embeds the task record of `types/index.ts` and the per-task batch loop of
`migrateTableInternal` (src/src/check-cache.ts lines 330–445, identical in
src/src/migration/concurrent-migrator.ts lines 141–242).  The transform
function carried by a task is external business logic and is not part of
the embedded state. -/

structure MigrationTask where
  sourceQuery : String
  targetTable : String
  priority : Option Int
  paginationStrategy : Option PaginationStrategy
  cursorColumn : Option String
  orderByClause : Option String
  maxConcurrentBatches : Option Nat
deriving DecidableEq

/-- `migration.priority || 0` (a missing priority defaults to `0`; the
falsy value `0` also maps to `0`). -/
def taskPriority (t : MigrationTask) : Int :=
  t.priority.getD 0

/-- A `BatchJob` as assembled in the batch loop. -/
structure BatchJob where
  tableId : String
  batchNumber : Nat
  offset : Nat
  batchSize : Nat
  sourceQuery : String
  targetTable : String
  paginationStrategy : PaginationStrategy
  cursorColumn : Option String
  lastCursorValue : JSValue
deriving DecidableEq

/-- The inner `for (let i = 0; i < maxConcurrentBatches && hasMore; i++)`
loop of `migrateTableInternal` (check-cache.ts lines 377–401): `hasMore` is
true on entry to the `while` body and is not written inside the `for`, so
the loop creates exactly `maxConcurrentBatches` jobs.  Every job of the
round carries the same `lastCursorValue` (the variable is only reassigned
after the round's results are awaited), and `offset` advances by
`batchSize` per job only for the offset/rownum strategies. -/
def buildBatchJobs (tableId sourceQuery targetTable : String)
    (strategy : PaginationStrategy) (cursorColumn : Option String)
    (batchSize : Nat) (lastCursorValue : JSValue) :
    Nat → Nat → Nat → List BatchJob
  | 0, _, _ => []
  | n + 1, offset, batchNumber =>
    { tableId := tableId
      batchNumber := batchNumber
      offset := offset
      batchSize := batchSize
      sourceQuery := sourceQuery
      targetTable := targetTable
      paginationStrategy := strategy
      cursorColumn := cursorColumn
      lastCursorValue := lastCursorValue } ::
    buildBatchJobs tableId sourceQuery targetTable strategy cursorColumn
      batchSize lastCursorValue n
      (if strategy = .offset ∨ strategy = .rownum then offset + batchSize else offset)
      (batchNumber + 1)

/-- The `PaginationContext` that `processBatch` (check-cache.ts lines
466–481) builds from a job before fetching a page. -/
def batchPaginationContext (job : BatchJob) : PaginationContext :=
  { strategy := job.paginationStrategy
    offset := job.offset
    batchSize := job.batchSize
    cursorColumn := job.cursorColumn
    lastCursorValue := job.lastCursorValue
    orderByClause :=
      if job.paginationStrategy = .cursor then
        some ("ORDER BY " ++ (job.cursorColumn.getD "undefined") ++ " ASC")
      else none }

/-- The per-batch persistence step of `migrateTableInternal` (check-cache.ts
lines 421–425, concurrent-migrator.ts lines 226–230): after accumulating a
round into `tableProgress`, the migrator calls
`saveCheckpoint(checkpointFile, tableProgress.lastProcessedId,
tableProgress.totalProcessed)` — with no `tableId` argument and no last
record. -/
def migratorPersistAfterBatch (file : FileContent) (tableProgress : TableProgressEntry)
    (now : String) : FileContent :=
  saveCheckpoint file tableProgress.lastProcessedId tableProgress.totalProcessed
    none .undefined now

/-! ## Pagination strategy determination

Embeds `determinePaginationStrategyForMigration` (check-cache.ts lines
584–648, identical to `ConcurrentMigrator.determinePaginationStrategy`) and
the Oracle estimation helpers `estimateTableRowCount` and
`checkIndexExists` (part_013, the repository's `database/oracle.ts`).  The
three Oracle queries those helpers run are modelled by an `OracleEnv`
giving each query's outcome: `.error` for a thrown driver error, `.ok` for
a result set. -/

structure OracleEnv where
  /-- `SELECT NUM_ROWS FROM USER_TABLES ...`: `none` models an empty result
  set or a null `NUM_ROWS`. -/
  statsNumRows : Except Unit (Option Int)
  /-- `SELECT COUNT(*) FROM <table>`. -/
  countRows : Except Unit Int
  /-- The index-lookup count over `USER_IND_COLUMNS`. -/
  indexCount : Except Unit Int

/-- `estimateTableRowCount`: statistics first, `COUNT(*)` as fallback, `0`
on any caught error. -/
def estimateTableRowCount (env : OracleEnv) : Int :=
  match env.statsNumRows with
  | .error _ => 0
  | .ok (some n) => n
  | .ok none =>
    match env.countRows with
    | .error _ => 0
    | .ok c => c

/-- `checkIndexExists`: true when the lookup returns a positive count,
false on an empty result or a caught error. -/
def checkIndexExists (env : OracleEnv) : Bool :=
  match env.indexCount with
  | .error _ => false
  | .ok n => n > 0

/-- JavaScript `\w` (ASCII word character). -/
def isWordChar (c : Char) : Bool :=
  c.isAlphanum || c = '_'

/-- One attempt of the regex `/FROM\s+(\w+)/i` at the current position:
a case-insensitive `FROM`, then at least one whitespace character, then the
maximal non-empty run of word characters. -/
def tryFromHere : List Char → Option String
  | c1 :: c2 :: c3 :: c4 :: rest =>
    if c1.toLower = 'f' ∧ c2.toLower = 'r' ∧ c3.toLower = 'o' ∧ c4.toLower = 'm' then
      let afterSpaces := rest.dropWhile Char.isWhitespace
      if rest.takeWhile Char.isWhitespace = [] then none
      else
        let word := afterSpaces.takeWhile isWordChar
        if word = [] then none else some (String.mk word)
    else none
  | _ => none

def fromTableAux : List Char → Option String
  | [] => none
  | c :: rest =>
    match tryFromHere (c :: rest) with
    | some w => some w
    | none => fromTableAux rest

/-- `sourceQuery.match(/FROM\s+(\w+)/i)`: the first captured table name, if
the pattern matches anywhere. -/
def matchFromTable (s : String) : Option String :=
  fromTableAux s.data

/-- The result record of `determinePaginationStrategyForMigration`. -/
structure StrategyChoice where
  strategy : PaginationStrategy
  cursorColumn : Option String
  orderByClause : Option String
deriving DecidableEq

/-- `determinePaginationStrategyForMigration` (check-cache.ts lines
584–648): a task-pinned strategy wins; otherwise a non-`rownum` global
strategy wins; otherwise auto-selection extracts the table name, estimates
the row count, probes the index of the task's cursor column (skipped when
the column is absent or empty, both falsy), and applies
`determineBestPaginationStrategy`.  A failed table-name extraction selects
`rownum`; the estimation helpers swallow their own query errors, so the
outer `catch` (also yielding `rownum`) has nothing left to catch in this
model. -/
def determinePaginationStrategyForMigration (migration : MigrationTask)
    (configStrategy : PaginationStrategy) (configCursorColumn : Option String)
    (env : OracleEnv) : StrategyChoice :=
  match migration.paginationStrategy with
  | some s =>
    { strategy := s
      cursorColumn := migration.cursorColumn
      orderByClause := migration.orderByClause }
  | none =>
    if configStrategy ≠ .rownum then
      { strategy := configStrategy
        cursorColumn := configCursorColumn
        orderByClause := migration.orderByClause }
    else
      match matchFromTable migration.sourceQuery with
      | none => { strategy := .rownum, cursorColumn := none, orderByClause := none }
      | some _ =>
        let estimatedRows := estimateTableRowCount env
        let hasIndex :=
          match migration.cursorColumn with
          | some c => if c = "" then false else checkIndexExists env
          | none => false
        { strategy := determineBestPaginationStrategy estimatedRows hasIndex
          cursorColumn := migration.cursorColumn
          orderByClause := migration.orderByClause }

/-! ## Task Orchestrator

Embeds `migrateTablesConcurrently` and `processMigrationsByPriorityGroups`
(check-cache.ts lines 219–299).  A run is observed through an event trace:
each task emits one `batchStart` event per batch it runs and one final
`settled` event (its promise resolving or rejecting, as observed by
`Promise.allSettled`).  The environment supplies each task's behaviour:
`batches t` is the list of batch numbers the task issues and `fails t`
whether its promise rejects.  Tasks inside a group run concurrently, so the
group's segment of the trace is an arbitrary interleaving of its tasks'
traces, supplied by a scheduler `sched` that must produce a permutation of
the tasks' combined events.  `await Promise.allSettled` is the barrier
between groups: the orchestrator only examines failures — and only then
starts the next group — after the whole segment is over. -/

inductive MigEvent where
  | batchStart (targetTable : String) (batchNumber : Nat)
  | settled (targetTable : String) (failed : Bool)
deriving DecidableEq

/-- The observable trace of one task: its batches, then its settlement. -/
def taskTrace (batches : MigrationTask → List Nat) (fails : MigrationTask → Bool)
    (t : MigrationTask) : List MigEvent :=
  (batches t).map (MigEvent.batchStart t.targetTable) ++
    [MigEvent.settled t.targetTable (fails t)]

/-- The distinct priorities in ascending order:
`Array.from(priorityGroups.keys()).sort((a, b) => a - b)`.  (Keys are
unique, so any correct sort yields the same list as the source's numeric
sort.) -/
def sortedPriorities (migrations : List MigrationTask) : List Int :=
  ((migrations.map taskPriority).dedup).insertionSort (· ≤ ·)

/-- The grouping built by `processMigrationsByPriorityGroups`: groups keyed
by priority, iterated in ascending key order; each group holds its tasks in
input order (the preceding `migrations.sort` is stable, so grouping the
sorted list preserves the original relative order within a group). -/
def groupMigrationsByPriority (migrations : List MigrationTask) :
    List (Int × List MigrationTask) :=
  (sortedPriorities migrations).map fun p =>
    (p, migrations.filter (fun t => taskPriority t == p))

/-- The terminal error thrown when a group has failures:
``Migration failed for ${failures.length} tables in priority group ${priority}``. -/
def migrationFailureMessage (failures : Nat) (priority : Int) : String :=
  "Migration failed for " ++ toString failures ++ " tables in priority group "
    ++ toString priority

/-- The `for (const priority of sortedPriorities)` loop: run the group,
await all its settlements, count rejections, and either throw (processing
no further group) or continue.  Returns the per-group trace segments in
processing order and the thrown error, if any. -/
def runPriorityGroups (sched : List (List MigEvent) → List MigEvent)
    (batches : MigrationTask → List Nat) (fails : MigrationTask → Bool) :
    List (Int × List MigrationTask) → List (Int × List MigEvent) × Option String
  | [] => ([], none)
  | (priority, group) :: rest =>
    let segment := sched (group.map (taskTrace batches fails))
    let failures := group.countP (fun t => fails t)
    if failures > 0 then
      ([(priority, segment)], some (migrationFailureMessage failures priority))
    else
      let r := runPriorityGroups sched batches fails rest
      ((priority, segment) :: r.1, r.2)

/-- `processMigrationsByPriorityGroups` applied to the grouping that
`migrateTablesConcurrently` builds. -/
def processMigrationsByPriorityGroups (sched : List (List MigEvent) → List MigEvent)
    (batches : MigrationTask → List Nat) (fails : MigrationTask → Bool)
    (migrations : List MigrationTask) : List (Int × List MigEvent) × Option String :=
  runPriorityGroups sched batches fails (groupMigrationsByPriority migrations)

/-! ## Reference Cache / Resolver Registry

Embeds `buildMappingCacheEnhanced`, `validateTableForCache` and
`createForeignKeyResolverEnhanced` (src/unnamed/part_008, the repository's
`utils/foreign-key-resolver.ts`).  The four destination-database queries the
build runs are modelled by a `CacheEnv`; the global `mappingCache` map is
threaded explicitly.  The `String()`/`Number()` coercions applied while
filling a table's map happen at the driver boundary and are folded into the
`projection` result. -/

/-- The in-memory `mappingCache`: table identifier → (code → surrogate id). -/
abbrev MappingCache : Type := List (String × List (String × Int))

structure CacheEnv where
  /-- The `information_schema.tables` existence probe. -/
  tableExists : Except Unit Bool
  /-- The `information_schema.columns` probe: which of the two requested
  columns are present. -/
  presentColumns : Except Unit (List String)
  /-- `SELECT COUNT(*) FROM <t> WHERE <code> IS NOT NULL`. -/
  nonNullCodeCount : Except Unit Int
  /-- The `SELECT code, id ... WHERE both non-null` projection. -/
  projection : Except Unit (List (String × Int))

/-- The record returned by `validateTableForCache`. -/
structure CacheValidationInfo where
  tableFound : Bool
  hasData : Bool
  missingColumns : List String
deriving DecidableEq

/-- `validateTableForCache` (part_008, lines 108–166): existence, column
and non-null-data checks; a query error (`.error`) escapes to the caller's
`catch`. -/
def validateTableForCache (env : CacheEnv) (codeColumn idColumn : String) :
    Except Unit CacheValidationInfo :=
  match env.tableExists with
  | .error e => .error e
  | .ok false => .ok { tableFound := false, hasData := false, missingColumns := [] }
  | .ok true =>
    match env.presentColumns with
    | .error e => .error e
    | .ok availableColumns =>
      let missing := [codeColumn, idColumn].filter (fun c => !availableColumns.contains c)
      if missing ≠ [] then
        .ok { tableFound := true, hasData := false, missingColumns := missing }
      else
        match env.nonNullCodeCount with
        | .error e => .error e
        | .ok cnt => .ok { tableFound := true, hasData := cnt > 0, missingColumns := [] }

/-- `buildMappingCacheEnhanced` (part_008, lines 171–247): validate, bail
out with `false` on a missing table, missing columns or no data; otherwise
load the full projection into a fresh map and install it for `tableName`,
replacing any prior version.  The surrounding `try`/`catch` turns any
thrown query error (a validation query's or the projection's) into `false`,
leaving the cache untouched. -/
def buildMappingCacheEnhanced (env : CacheEnv) (mappingCache : MappingCache)
    (tableName codeColumn idColumn : String) : Bool × MappingCache :=
  match validateTableForCache env codeColumn idColumn with
  | .error _ => (false, mappingCache)
  | .ok validation =>
    if validation.tableFound = false then (false, mappingCache)
    else if validation.missingColumns ≠ [] then (false, mappingCache)
    else if validation.hasData = false then (false, mappingCache)
    else
      match env.projection with
      | .error _ => (false, mappingCache)
      | .ok rows =>
        (true, alistSet mappingCache tableName
          (rows.foldl (fun m r => alistSet m r.1 r.2) []))

/-- The resolver closure returned by `createForeignKeyResolverEnhanced`
(part_008, lines 252–285): `null` for a falsy source code, a table with no
cache, or a code absent from the table's map. -/
def resolveForeignKeyEnhanced (mappingCache : MappingCache) (tableName : String)
    (sourceCode : String) : Option Int :=
  if sourceCode = "" then none
  else
    match alistGet mappingCache tableName with
    | none => none
    | some tableMap => alistGet tableMap sourceCode

/-! ## Relational semantics of the offset and rownum renderings

`buildRownumQuery` renders `... WHERE ROWNUM <= offset + batchSize` around
the base query and keeps `rnum > offset` outside: over a stable, ordered
source dataset it returns exactly the rows with 1-based rank in
`[offset+1, offset+batchSize]`.  `buildOffsetQuery` renders
`OFFSET offset ROWS FETCH NEXT batchSize ROWS ONLY`: skip `offset` rows,
take `batchSize`.  These two definitions are that denotation. -/

def rownumPage {α : Type} (rows : List α) (offset batchSize : Nat) : List α :=
  (rows.take (offset + batchSize)).drop offset

def offsetPage {α : Type} (rows : List α) (offset batchSize : Nat) : List α :=
  (rows.drop offset).take batchSize

/-! ## Specification-side rendering of the cursor query

`cursorQuerySpecced` is written from the specification's words, to be
compared with `buildCursorQuery` (which is translated from the source):
"appends (or injects into an existing filter) a predicate
`cursorColumn > lastValue`, quoting string-typed values, followed by the
ordering clause and a take-pageSize limit; omits the predicate entirely on
the first page". -/

/-- The rendered continuation token: absent on the first page (no prior
token), quoted when the value is a string. -/
def specQuotedToken : JSValue → Option String
  | .undefined => none
  | .null => none
  | .num n => some (toString n)
  | .str s => some ("'" ++ s ++ "'")

def cursorQuerySpecced (baseQuery : String) (pageSize : Nat) (cursorColumn : String)
    (lastToken : JSValue) (ordering : Option String) : String :=
  let withFilter :=
    match specQuotedToken lastToken with
    | none =>
      if strIncludes baseQuery "WHERE" then baseQuery else baseQuery ++ " WHERE 1=1"
    | some tok =>
      let predicate := cursorColumn ++ " > " ++ tok
      if strIncludes baseQuery "WHERE" then baseQuery ++ " AND " ++ predicate
      else (baseQuery ++ " WHERE 1=1") ++ " AND " ++ predicate
  let orderingClause :=
    match ordering with
    | some s => if s = "" then "ORDER BY " ++ cursorColumn ++ " ASC" else s
    | none => "ORDER BY " ++ cursorColumn ++ " ASC"
  "\n        " ++ withFilter ++ "\n        " ++ orderingClause
    ++ "\n        FETCH FIRST " ++ toString pageSize ++ " ROWS ONLY\n    "

/-! ## Helper lemmas -/

theorem alistGet_alistSet_self {β : Type} (m : List (String × β)) (k : String) (v : β) :
    alistGet (alistSet m k v) k = some v := by
  induction m with
  | nil => simp [alistSet, alistGet, List.find?]
  | cons hd tl ih =>
    by_cases h : hd.1 == k
    · simp [alistSet, alistGet, h, List.find?]
    · simpa [alistSet, alistGet, h, List.find?] using ih

/-! ## Claim C4 -/

/-- C4: loading the checkpoint never raises — for every file state the
`try`/`catch` body resolves to an `.ok` document, and a missing or
malformed checkpoint file yields the fresh, empty checkpoint: zero global
progress and an empty per-table map. -/
theorem loadCheckpoint_never_raises (file : FileContent) (now : String) :
    loadCheckpointE file now = .ok (loadCheckpoint file now)
    ∧ loadCheckpoint .missing now = freshCheckpoint now
    ∧ loadCheckpoint .malformed now = freshCheckpoint now
    ∧ (freshCheckpoint now).lastProcessedId = 0
    ∧ (freshCheckpoint now).totalProcessed = 0
    ∧ (freshCheckpoint now).tableProgress = some [] := by
  refine ⟨?_, rfl, rfl, rfl, rfl, rfl⟩
  cases file <;> rfl

/-! ## Claim C2 -/

/-- C2 (code bug): the per-batch persistence step of the migrator calls
`saveCheckpoint` without the task identifier, so the written document's
per-table map is exactly the one read back from the file — the task's entry
is never replaced.  In particular, after a fresh-file run persists a batch,
a restart finds no per-task progress at all: `getTableProgress` is `none`
for every task identifier, so the claimed per-task resume position is not
durable. -/
theorem migrator_batch_save_drops_task_entry (file : FileContent)
    (tableProgress : TableProgressEntry) (now now2 tid : String) :
    (saveCheckpointDoc file tableProgress.lastProcessedId tableProgress.totalProcessed
        none .undefined now).tableProgress
      = (loadCheckpoint file now).tableProgress
    ∧ getTableProgress (migratorPersistAfterBatch .missing tableProgress now) now2 tid
      = none := by
  constructor
  · cases file <;> rfl
  · rfl

/-! ## Claim C10 -/

/-- C10: every `saveCheckpoint` call that supplies a task identifier
installs an entry with `isComplete := false` regardless of the entry's
previous state; `markTableComplete` does set the flag on an existing entry,
and a per-task save issued afterwards erases it again. -/
theorem saveCheckpoint_erases_completion (d : CheckpointData) (e : TableProgressEntry)
    (t : String) (lid tot tot2 : Int) (rec : JSValue) (now now2 : String)
    (h : alistGet (d.tableProgress.getD []) t = some e) :
    (∀ f : FileContent,
      alistGet ((saveCheckpointDoc f lid tot2 (some t) rec now2).tableProgress.getD []) t
        = some ⟨lid, tot2, false, .undefined, rec⟩)
    ∧ (∃ d', markTableComplete (.valid d) t tot now = .valid d'
        ∧ alistGet (d'.tableProgress.getD []) t
            = some { e with isComplete := true, totalProcessed := tot })
    ∧ alistGet ((saveCheckpointDoc (markTableComplete (.valid d) t tot now)
          lid tot2 (some t) rec now2).tableProgress.getD []) t
        = some ⟨lid, tot2, false, .undefined, rec⟩ := by
  have hsave : ∀ f : FileContent,
      alistGet ((saveCheckpointDoc f lid tot2 (some t) rec now2).tableProgress.getD []) t
        = some ⟨lid, tot2, false, .undefined, rec⟩ := by
    intro f
    cases f <;>
      simp [saveCheckpointDoc, readAndParse, freshCheckpoint, alistGet_alistSet_self]
  refine ⟨hsave, ?_, hsave _⟩
  refine ⟨{ d with
      tableProgress := some (alistSet (d.tableProgress.getD []) t
        { e with isComplete := true, totalProcessed := tot })
      timestamp := now }, ?_, ?_⟩
  · simp [markTableComplete, readAndParse, h]
  · simpa using alistGet_alistSet_self (d.tableProgress.getD []) t
      { e with isComplete := true, totalProcessed := tot }

/-! ## Claim C3 -/

theorem buildBatchJobs_length (tid q tgt : String) (st : PaginationStrategy)
    (cc : Option String) (bs : Nat) (lcv : JSValue) :
    ∀ n off bn, (buildBatchJobs tid q tgt st cc bs lcv n off bn).length = n := by
  intro n
  induction n with
  | zero => intro off bn; rfl
  | succ m ih => intro off bn; simpa [buildBatchJobs] using ih _ _

theorem buildBatchJobs_cursor_constant (tid q tgt : String) (cc : Option String)
    (bs : Nat) (lcv : JSValue) :
    ∀ n off bn, ∀ job ∈ buildBatchJobs tid q tgt .cursor cc bs lcv n off bn,
      job.lastCursorValue = lcv ∧ job.offset = off := by
  intro n
  induction n with
  | zero => intro off bn job hj; simp [buildBatchJobs] at hj
  | succ m ih =>
    intro off bn job hj
    simp only [buildBatchJobs, List.mem_cons] at hj
    rcases hj with rfl | hj
    · exact ⟨rfl, rfl⟩
    · have := ih _ _ job (by simpa using hj)
      simpa using this

/-- C3 (code bug): within one iteration of the batch loop, the migrator
creates as many cursor batch jobs as the configured batch concurrency, all
carrying the same continuation token and the same offset — the token
emitted by a batch is only observed in the *next* iteration.  At the
failing input (`maxConcurrentBatches = 2`, cursor strategy), the two jobs
launched concurrently build identical pagination contexts and hence issue
the identical paginated query, so two cursor batches for the same page are
in flight at once, contradicting single-batch-in-flight causal ordering. -/
theorem cursor_batches_not_single_in_flight (tid q tgt : String) (cc : Option String)
    (bs : Nat) (lcv : JSValue) (n off bn : Nat) :
    (buildBatchJobs tid q tgt .cursor cc bs lcv n off bn).length = n
    ∧ (∀ job ∈ buildBatchJobs tid q tgt .cursor cc bs lcv n off bn,
        job.lastCursorValue = lcv ∧ job.offset = off)
    ∧ (∃ j0 j1,
        buildBatchJobs "table_0" "SELECT * FROM T" "tgt" .cursor (some "ID") 100
            (.num 500) 2 0 0 = [j0, j1]
        ∧ j0.batchNumber ≠ j1.batchNumber
        ∧ batchPaginationContext j0 = batchPaginationContext j1
        ∧ buildPaginatedQuery "SELECT * FROM T" (batchPaginationContext j0)
            = buildPaginatedQuery "SELECT * FROM T" (batchPaginationContext j1)) := by
  refine ⟨buildBatchJobs_length tid q tgt .cursor cc bs lcv n off bn,
    buildBatchJobs_cursor_constant tid q tgt cc bs lcv n off bn, ?_⟩
  exact ⟨_, _, rfl, by decide, rfl, rfl⟩

/-- C3 witness: the general facts applied at a concrete input. -/
theorem cursor_batches_not_single_in_flight_witness :
    (buildBatchJobs "t" "q" "g" .cursor none 10 (.num 3) 3 5 0).length = 3
    ∧ (⟨"t", 0, 5, 10, "q", "g", .cursor, none, .num 3⟩ : BatchJob)
        ∈ buildBatchJobs "t" "q" "g" .cursor none 10 (.num 3) 3 5 0
    ∧ (⟨"t", 0, 5, 10, "q", "g", .cursor, none, .num 3⟩ : BatchJob).lastCursorValue
        = .num 3 := by
  refine ⟨(cursor_batches_not_single_in_flight "t" "q" "g" none 10 (.num 3) 3 5 0).1,
    by decide, ?_⟩
  exact ((cursor_batches_not_single_in_flight "t" "q" "g" none 10 (.num 3) 3 5 0).2.1
    _ (by decide)).1

/-! ## Claim C5 -/

/-- C5: the cursor-style rendering agrees, for every input, with the
specification's description (`cursorQuerySpecced`): the cursor predicate is
omitted when there is no prior token, otherwise `cursorColumn > lastValue`
with string values quoted is injected with `AND` into the (possibly freshly
introduced) filter; the given ordering clause — or `ORDER BY cursorColumn
ASC` — and a fetch-first limit of the page size follow.  `buildPaginatedQuery`
dispatches the cursor strategy to this rendering. -/
theorem buildCursorQuery_matches_spec (base : String) (bs : Nat) (col : String)
    (v : JSValue) (ord : Option String) (off : Nat) (cc : Option String) :
    buildCursorQuery base bs col v ord = cursorQuerySpecced base bs col v ord
    ∧ buildPaginatedQuery base ⟨.cursor, off, bs, cc, v, ord⟩
        = buildCursorQuery base bs (cc.getD "undefined") v ord := by
  constructor
  · cases v <;> cases ord <;>
      simp only [buildCursorQuery, cursorQuerySpecced, specQuotedToken,
        formatCursorValue, jsInterp] <;>
      split_ifs <;>
      simp_all [String.append_assoc, String.append_empty, -String.reduceAppend]
  · rfl

/-! ## Claim C8 -/

/-- C8 counterexample: at the single-row page `[{id: 0}]` with cursor
column `id`, the value of that column in the last row is `0`, but
extraction returns `undefined` — the falsy value `0` fails every `||`
test, and the final operand is the (absent) upper-case lookup. -/
theorem extractCursorValue_misses_falsy_value :
    extractCursorValue [[("id", JSValue.num 0)]] "id" = .undefined
    ∧ rowGet [("id", JSValue.num 0)] "id" = .num 0
    ∧ JSValue.undefined ≠ JSValue.num 0 := by
  exact ⟨rfl, rfl, by decide⟩

/-- C8 amended: for a non-empty page, extraction returns the first truthy
value among the last row's exact-case, lower-case then upper-case lookups
of the cursor column, and falls back to the upper-case lookup's result when
all three are falsy (so a falsy stored value such as `0` may not be
returned); for an empty page it returns `null`. -/
theorem extractCursorValue_truthy_chain (rows : List Row) (lastRow : Row) (col : String)
    (h : rows.getLast? = some lastRow) :
    extractCursorValue [] col = .null
    ∧ (truthy (rowGet lastRow col) = true →
        extractCursorValue rows col = rowGet lastRow col)
    ∧ (truthy (rowGet lastRow col) = false →
        truthy (rowGet lastRow (toLowerStr col)) = true →
        extractCursorValue rows col = rowGet lastRow (toLowerStr col))
    ∧ (truthy (rowGet lastRow col) = false →
        truthy (rowGet lastRow (toLowerStr col)) = false →
        extractCursorValue rows col = rowGet lastRow (toUpperStr col)) := by
  refine ⟨rfl, ?_, ?_, ?_⟩
  · intro h1
    simp [extractCursorValue, h, jsOr, h1]
  · intro h1 h2
    simp [extractCursorValue, h, jsOr, h1, h2]
  · intro h1 h2
    simp [extractCursorValue, h, jsOr, h1, h2]

/-- C8 witness: a page whose last row holds a truthy value under the
exact-case column name has that value extracted. -/
theorem extractCursorValue_truthy_chain_witness :
    ([[("ID", JSValue.num 7)]] : List Row).getLast? = some [("ID", JSValue.num 7)]
    ∧ extractCursorValue [[("ID", JSValue.num 7)]] "ID"
        = rowGet [("ID", JSValue.num 7)] "ID" := by
  refine ⟨rfl, ?_⟩
  exact (extractCursorValue_truthy_chain [[("ID", JSValue.num 7)]]
    [("ID", JSValue.num 7)] "ID" rfl).2.1 (by decide)

/-! ## Claim C9 -/

theorem offsetPage_flatten_take {α : Type} (rows : List α) (P : Nat) :
    ∀ k, ((List.range k).map fun i => offsetPage rows (i * P) P).flatten
      = rows.take (k * P) := by
  intro k
  induction k with
  | zero => simp
  | succ m ih =>
    rw [List.range_succ, List.map_append, List.flatten_append, ih]
    simp only [List.map_cons, List.map_nil, List.flatten_cons, List.flatten_nil,
      List.append_nil, offsetPage]
    rw [← List.take_add, Nat.succ_mul]

theorem rownumPage_eq_drop_take {α : Type} (rows : List α) (o P : Nat) :
    rownumPage rows o P = (rows.drop o).take P := by
  rw [rownumPage, List.drop_take, Nat.add_sub_cancel_left]

/-- C9: over a stable dataset, the offset and rownum pages at offsets
`0, P, 2P, …` concatenate to exactly the source rows (each row exactly
once), the rownum rendering selects precisely the rows ranked `offset+1`
through `offset+P` (skip `offset`, take `P`), and for a duplicate-free
dataset the pages are pairwise disjoint. -/
theorem pagination_pages_partition {α : Type} (rows : List α) (P k : Nat)
    (hk : rows.length ≤ k * P) :
    ((List.range k).map fun i => rownumPage rows (i * P) P).flatten = rows
    ∧ ((List.range k).map fun i => offsetPage rows (i * P) P).flatten = rows
    ∧ (∀ o, rownumPage rows o P = (rows.drop o).take P)
    ∧ (rows.Nodup →
        ((List.range k).map fun i => rownumPage rows (i * P) P).Pairwise List.Disjoint
        ∧ ((List.range k).map fun i => offsetPage rows (i * P) P).Pairwise
            List.Disjoint) := by
  have hoff : ((List.range k).map fun i => offsetPage rows (i * P) P).flatten = rows := by
    rw [offsetPage_flatten_take, List.take_of_length_le hk]
  have hmap : ((List.range k).map fun i => rownumPage rows (i * P) P)
      = (List.range k).map fun i => offsetPage rows (i * P) P := by
    refine List.map_congr_left fun i _ => ?_
    rw [rownumPage_eq_drop_take]; rfl
  refine ⟨hmap ▸ hoff, hoff, fun o => rownumPage_eq_drop_take rows o P, fun hnd => ?_⟩
  have hflat : ((List.range k).map fun i => offsetPage rows (i * P) P).flatten.Nodup := by
    rw [hoff]; exact hnd
  exact ⟨hmap ▸ (List.nodup_flatten.mp hflat).2, (List.nodup_flatten.mp hflat).2⟩

/-- C9 witness: five rows, page size two, three pages. -/
theorem pagination_pages_partition_witness :
    ([1, 2, 3, 4, 5] : List Nat).length ≤ 3 * 2
    ∧ ((List.range 3).map fun i => rownumPage [1, 2, 3, 4, 5] (i * 2) 2).flatten
        = [1, 2, 3, 4, 5] := by
  exact ⟨by decide, (pagination_pages_partition [1, 2, 3, 4, 5] 2 3 (by decide)).1⟩

/-- C10 witness: a concrete document whose entry is marked complete and
then overwritten by a per-task save with the flag cleared. -/
theorem saveCheckpoint_erases_completion_witness :
    alistGet ((⟨0, 0, "t0", some [("tblA", ⟨5, 10, false, .undefined, .undefined⟩)]⟩ :
        CheckpointData).tableProgress.getD []) "tblA"
      = some ⟨5, 10, false, .undefined, .undefined⟩
    ∧ alistGet ((saveCheckpointDoc
          (markTableComplete
            (.valid ⟨0, 0, "t0", some [("tblA", ⟨5, 10, false, .undefined, .undefined⟩)]⟩)
            "tblA" 10 "t1")
          7 20 (some "tblA") .undefined "t2").tableProgress.getD []) "tblA"
        = some ⟨7, 20, false, .undefined, .undefined⟩ := by
  refine ⟨rfl, ?_⟩
  exact (saveCheckpoint_erases_completion
    ⟨0, 0, "t0", some [("tblA", ⟨5, 10, false, .undefined, .undefined⟩)]⟩
    ⟨5, 10, false, .undefined, .undefined⟩ "tblA" 7 10 20 .undefined "t1" "t2" rfl).2.2

/-! ## Claim C6 -/

/-- C6 counterexample: with no pinned strategy, a successful row-count
estimate of 2,000,000 and a *failing* index probe, auto-selection returns
`offset`, not `rownum` — an estimation failure does not always fall back to
rownum. -/
theorem strategy_autoselect_offset_despite_index_probe_error :
    (determinePaginationStrategyForMigration
        ⟨"SELECT * FROM BIG_TABLE", "tgt", none, none, some "ID", none, none⟩
        .rownum none ⟨.ok (some 2000000), .ok 2000000, .error ()⟩).strategy
      = .offset
    ∧ PaginationStrategy.offset ≠ PaginationStrategy.rownum := by
  exact ⟨rfl, by decide⟩

/-- C6 amended: a task-pinned strategy wins; otherwise a non-rownum global
strategy wins; otherwise auto-selection chooses cursor above 1,000,000
estimated rows with a confirmed index, offset above 100,000, else rownum.
A failed table-name extraction or row-count query yields rownum (the
estimate defaults to 0); a failed index probe is treated as "no index",
which rules out cursor but still allows offset for large estimates; no
estimation failure raises. -/
theorem determinePaginationStrategy_spec (migration : MigrationTask)
    (configStrategy : PaginationStrategy) (configCursorColumn : Option String)
    (env : OracleEnv) :
    (∀ s, migration.paginationStrategy = some s →
      determinePaginationStrategyForMigration migration configStrategy configCursorColumn env
        = ⟨s, migration.cursorColumn, migration.orderByClause⟩)
    ∧ (migration.paginationStrategy = none → configStrategy ≠ .rownum →
      determinePaginationStrategyForMigration migration configStrategy configCursorColumn env
        = ⟨configStrategy, configCursorColumn, migration.orderByClause⟩)
    ∧ (migration.paginationStrategy = none → configStrategy = .rownum →
      matchFromTable migration.sourceQuery = none →
      determinePaginationStrategyForMigration migration configStrategy configCursorColumn env
        = ⟨.rownum, none, none⟩)
    ∧ (migration.paginationStrategy = none → configStrategy = .rownum →
      ∀ tn, matchFromTable migration.sourceQuery = some tn →
      env.statsNumRows = .error () →
      (determinePaginationStrategyForMigration migration configStrategy configCursorColumn
        env).strategy = .rownum)
    ∧ (migration.paginationStrategy = none → configStrategy = .rownum →
      ∀ tn, matchFromTable migration.sourceQuery = some tn →
      env.statsNumRows = .ok none → env.countRows = .error () →
      (determinePaginationStrategyForMigration migration configStrategy configCursorColumn
        env).strategy = .rownum)
    ∧ (migration.paginationStrategy = none → configStrategy = .rownum →
      ∀ tn, matchFromTable migration.sourceQuery = some tn →
      env.indexCount = .error () →
      (determinePaginationStrategyForMigration migration configStrategy configCursorColumn
          env).strategy ≠ .cursor
      ∧ (estimateTableRowCount env > 100000 →
          (determinePaginationStrategyForMigration migration configStrategy configCursorColumn
            env).strategy = .offset)
      ∧ (estimateTableRowCount env ≤ 100000 →
          (determinePaginationStrategyForMigration migration configStrategy configCursorColumn
            env).strategy = .rownum))
    ∧ (migration.paginationStrategy = none → configStrategy = .rownum →
      ∀ tn, matchFromTable migration.sourceQuery = some tn →
      ∀ c, migration.cursorColumn = some c → c ≠ "" →
      (determinePaginationStrategyForMigration migration configStrategy configCursorColumn
        env).strategy
        = determineBestPaginationStrategy (estimateTableRowCount env) (checkIndexExists env))
    ∧ (∀ est : Int, ∀ idx : Bool,
        (est > 1000000 → idx = true → determineBestPaginationStrategy est idx = .cursor)
        ∧ (¬(est > 1000000 ∧ idx = true) → est > 100000 →
            determineBestPaginationStrategy est idx = .offset)
        ∧ (est ≤ 100000 → determineBestPaginationStrategy est idx = .rownum)) := by
  refine ⟨?_, ?_, ?_, ?_, ?_, ?_, ?_, ?_⟩
  · intro s hs
    simp [determinePaginationStrategyForMigration, hs]
  · intro h1 h2
    simp [determinePaginationStrategyForMigration, h1, h2]
  · intro h1 h2 h3
    simp [determinePaginationStrategyForMigration, h1, h2, h3]
  · intro h1 h2 tn h3 h4
    have hest : estimateTableRowCount env = 0 := by
      simp [estimateTableRowCount, h4]
    simp [determinePaginationStrategyForMigration, h1, h2, h3, hest,
      determineBestPaginationStrategy]
  · intro h1 h2 tn h3 h4 h5
    have hest : estimateTableRowCount env = 0 := by
      simp [estimateTableRowCount, h4, h5]
    simp [determinePaginationStrategyForMigration, h1, h2, h3, hest,
      determineBestPaginationStrategy]
  · intro h1 h2 tn h3 h4
    have hidx : checkIndexExists env = false := by
      simp [checkIndexExists, h4]
    have hsel : (determinePaginationStrategyForMigration migration configStrategy
        configCursorColumn env).strategy
        = determineBestPaginationStrategy (estimateTableRowCount env) false := by
      rcases hcc : migration.cursorColumn with _ | c
      · simp [determinePaginationStrategyForMigration, h1, h2, h3, hcc]
      · by_cases hce : c = "" <;>
          simp [determinePaginationStrategyForMigration, h1, h2, h3, hcc, hce, hidx]
    refine ⟨?_, ?_, ?_⟩
    · rw [hsel]
      simp [determineBestPaginationStrategy]
      split_ifs <;> simp_all
    · intro hbig
      rw [hsel]
      simp [determineBestPaginationStrategy]
      omega
    · intro hsmall
      rw [hsel]
      have : ¬ estimateTableRowCount env > 1000000 := by omega
      have h2' : ¬ estimateTableRowCount env > 100000 := by omega
      simp [determineBestPaginationStrategy, this, h2']
  · intro h1 h2 tn h3 c hc hce
    simp [determinePaginationStrategyForMigration, h1, h2, h3, hc, hce]
  · intro est idx
    refine ⟨?_, ?_, ?_⟩
    · intro ha hb
      simp [determineBestPaginationStrategy, ha, hb]
    · intro ha hb
      simp [determineBestPaginationStrategy, ha, hb]
    · intro ha
      have hb : ¬ est > 1000000 := by omega
      have hc : ¬ est > 100000 := by omega
      simp [determineBestPaginationStrategy, hb, hc]

/-- C6 witness: a failing row-count statistics query on an otherwise
well-formed auto-selection input yields rownum. -/
theorem determinePaginationStrategy_spec_witness :
    matchFromTable "SELECT * FROM T1" = some "T1"
    ∧ (determinePaginationStrategyForMigration
        ⟨"SELECT * FROM T1", "g", none, none, none, none, none⟩ .rownum none
        ⟨.error (), .ok 5, .ok 0⟩).strategy = .rownum := by
  refine ⟨rfl, ?_⟩
  exact (determinePaginationStrategy_spec
    ⟨"SELECT * FROM T1", "g", none, none, none, none, none⟩ .rownum none
    ⟨.error (), .ok 5, .ok 0⟩).2.2.2.1 rfl rfl "T1" rfl rfl

/-! ## Claim C7 -/

/-- C7: building a reference cache returns a not-built signal (`false`,
cache untouched) on every validation failure — missing table, missing
column, no row with a non-null code — and on every query error, instead of
throwing; it installs the full projection only when all checks pass; and
resolving against a cache with no entry for the table returns not-found
(`none`) rather than failing. -/
theorem referenceCache_degrades_not_throws (env : CacheEnv) (cache : MappingCache)
    (t c i code : String) :
    ((buildMappingCacheEnhanced env cache t c i).1 = false →
      (buildMappingCacheEnhanced env cache t c i).2 = cache)
    ∧ (env.tableExists = .ok false →
      buildMappingCacheEnhanced env cache t c i = (false, cache))
    ∧ (env.tableExists = .error () →
      buildMappingCacheEnhanced env cache t c i = (false, cache))
    ∧ (∀ avail, env.tableExists = .ok true → env.presentColumns = .ok avail →
      c ∉ avail →
      buildMappingCacheEnhanced env cache t c i = (false, cache))
    ∧ (∀ avail n, env.tableExists = .ok true → env.presentColumns = .ok avail →
      c ∈ avail → i ∈ avail →
      env.nonNullCodeCount = .ok n → n ≤ 0 →
      buildMappingCacheEnhanced env cache t c i = (false, cache))
    ∧ (∀ avail, env.tableExists = .ok true → env.presentColumns = .ok avail →
      c ∈ avail → i ∈ avail →
      env.nonNullCodeCount = .error () →
      buildMappingCacheEnhanced env cache t c i = (false, cache))
    ∧ (∀ avail n, env.tableExists = .ok true → env.presentColumns = .ok avail →
      c ∈ avail → i ∈ avail →
      env.nonNullCodeCount = .ok n → 0 < n →
      env.projection = .error () →
      buildMappingCacheEnhanced env cache t c i = (false, cache))
    ∧ (∀ avail n rows, env.tableExists = .ok true → env.presentColumns = .ok avail →
      c ∈ avail → i ∈ avail →
      env.nonNullCodeCount = .ok n → 0 < n →
      env.projection = .ok rows →
      buildMappingCacheEnhanced env cache t c i
        = (true, alistSet cache t (rows.foldl (fun m r => alistSet m r.1 r.2) [])))
    ∧ (alistGet cache t = none → resolveForeignKeyEnhanced cache t code = none)
    ∧ resolveForeignKeyEnhanced cache t "" = none := by
  refine ⟨?_, ?_, ?_, ?_, ?_, ?_, ?_, ?_, ?_, ?_⟩
  · intro h
    rcases hval : validateTableForCache env c i with e | v
    · simp [buildMappingCacheEnhanced, hval]
    · simp only [buildMappingCacheEnhanced, hval] at h ⊢
      split_ifs at h ⊢ <;> try rfl
      rcases hproj : env.projection with e | rows
      · simp [hproj]
      · simp [hproj] at h
  · intro h
    simp [buildMappingCacheEnhanced, validateTableForCache, h]
  · intro h
    simp [buildMappingCacheEnhanced, validateTableForCache, h]
  · intro avail h1 h2 h3
    simp [buildMappingCacheEnhanced, validateTableForCache, h1, h2, h3]
  · intro avail n h1 h2 h3 h4 h5 h6
    have hn : ¬ (0 : Int) < n := by omega
    simp [buildMappingCacheEnhanced, validateTableForCache, h1, h2, h3, h4, h5, hn]
  · intro avail h1 h2 h3 h4 h5
    simp [buildMappingCacheEnhanced, validateTableForCache, h1, h2, h3, h4, h5]
  · intro avail n h1 h2 h3 h4 h5 h6 h7
    simp [buildMappingCacheEnhanced, validateTableForCache, h1, h2, h3, h4, h5, h6, h7]
  · intro avail n rows h1 h2 h3 h4 h5 h6 h7
    simp [buildMappingCacheEnhanced, validateTableForCache, h1, h2, h3, h4, h5, h6, h7]
  · intro h
    simp [resolveForeignKeyEnhanced, h]
  · simp [resolveForeignKeyEnhanced]

/-- C7 witness: a missing destination table yields not-built on an
unchanged cache, and resolution against the unresolved cache yields
not-found. -/
theorem referenceCache_degrades_not_throws_witness :
    buildMappingCacheEnhanced ⟨.ok false, .ok [], .ok 0, .ok []⟩ [] "tbl" "code" "id"
      = (false, [])
    ∧ resolveForeignKeyEnhanced [] "tbl" "01" = none := by
  refine ⟨?_, ?_⟩
  · exact (referenceCache_degrades_not_throws ⟨.ok false, .ok [], .ok 0, .ok []⟩ []
      "tbl" "code" "id" "01").2.1 rfl
  · exact (referenceCache_degrades_not_throws ⟨.ok false, .ok [], .ok 0, .ok []⟩ []
      "tbl" "code" "id" "01").2.2.2.2.2.2.2.2.1 rfl

/-! ## Claim C1 -/

theorem sortedPriorities_nodup (ms : List MigrationTask) :
    (sortedPriorities ms).Nodup :=
  (List.perm_insertionSort _ _).nodup_iff.mpr (List.nodup_dedup _)

theorem sortedPriorities_pairwise_lt (ms : List MigrationTask) :
    (sortedPriorities ms).Pairwise (· < ·) := by
  have hs : (sortedPriorities ms).Pairwise (· ≤ ·) :=
    List.sorted_insertionSort _ _
  have hn : (sortedPriorities ms).Pairwise (· ≠ ·) := sortedPriorities_nodup ms
  exact (hs.and hn).imp fun h => lt_of_le_of_ne h.1 h.2

theorem mem_sortedPriorities {ms : List MigrationTask} {p : Int} :
    p ∈ sortedPriorities ms ↔ p ∈ ms.map taskPriority := by
  rw [sortedPriorities, (List.perm_insertionSort _ _).mem_iff, List.mem_dedup]

theorem groups_map_fst (ms : List MigrationTask) :
    (groupMigrationsByPriority ms).map Prod.fst = sortedPriorities ms := by
  simp [groupMigrationsByPriority, Function.comp_def]

theorem groups_mem_iff {ms : List MigrationTask} {p : Int} {g : List MigrationTask} :
    (p, g) ∈ groupMigrationsByPriority ms
      ↔ p ∈ sortedPriorities ms ∧ g = ms.filter (fun t => taskPriority t == p) := by
  constructor
  · intro h
    rcases List.mem_map.mp h with ⟨q, hq, he⟩
    cases he
    exact ⟨hq, rfl⟩
  · rintro ⟨hp, rfl⟩
    exact List.mem_map.mpr ⟨p, hp, rfl⟩

theorem runGroups_mem (sched : List (List MigEvent) → List MigEvent)
    (batches : MigrationTask → List Nat) (fails : MigrationTask → Bool) :
    ∀ gs : List (Int × List MigrationTask), ∀ seg,
      seg ∈ (runPriorityGroups sched batches fails gs).1 →
      ∃ g, (seg.1, g) ∈ gs ∧ seg.2 = sched (g.map (taskTrace batches fails)) := by
  intro gs
  induction gs with
  | nil => intro seg h; simp [runPriorityGroups] at h
  | cons hd tl ih =>
    obtain ⟨p, g⟩ := hd
    intro seg h
    by_cases hf : g.countP (fun t => fails t) > 0
    · simp only [runPriorityGroups, if_pos hf, List.mem_singleton] at h
      subst h
      exact ⟨g, List.mem_cons_self .., rfl⟩
    · simp only [runPriorityGroups, if_neg hf, List.mem_cons] at h
      rcases h with rfl | h
      · exact ⟨g, List.mem_cons_self .., rfl⟩
      · rcases ih seg h with ⟨g', hg', hs⟩
        exact ⟨g', List.mem_cons_of_mem _ hg', hs⟩

theorem runGroups_fst_front (sched : List (List MigEvent) → List MigEvent)
    (batches : MigrationTask → List Nat) (fails : MigrationTask → Bool) :
    ∀ gs : List (Int × List MigrationTask),
      ((runPriorityGroups sched batches fails gs).1.map Prod.fst)
        <+: gs.map Prod.fst := by
  intro gs
  induction gs with
  | nil => simp [runPriorityGroups]
  | cons hd tl ih =>
    obtain ⟨p, g⟩ := hd
    by_cases hf : g.countP (fun t => fails t) > 0
    · simp only [runPriorityGroups, if_pos hf]
      exact ⟨tl.map Prod.fst, by simp⟩
    · simp only [runPriorityGroups, if_neg hf, List.map_cons]
      rcases ih with ⟨rest, hrest⟩
      exact ⟨rest, by simp [hrest]⟩

theorem runGroups_none (sched : List (List MigEvent) → List MigEvent)
    (batches : MigrationTask → List Nat) (fails : MigrationTask → Bool) :
    ∀ gs : List (Int × List MigrationTask),
      (runPriorityGroups sched batches fails gs).2 = none →
      (runPriorityGroups sched batches fails gs).1
        = gs.map (fun pg => (pg.1, sched (pg.2.map (taskTrace batches fails))))
      ∧ ∀ pg ∈ gs, pg.2.countP (fun t => fails t) = 0 := by
  intro gs
  induction gs with
  | nil => intro _; exact ⟨rfl, by simp⟩
  | cons hd tl ih =>
    obtain ⟨p, g⟩ := hd
    intro h
    by_cases hf : g.countP (fun t => fails t) > 0
    · simp only [runPriorityGroups, if_pos hf] at h
      cases h
    · simp only [runPriorityGroups, if_neg hf] at h ⊢
      rcases ih h with ⟨h1, h2⟩
      refine ⟨by simp [h1], ?_⟩
      intro pg hpg
      rcases List.mem_cons.mp hpg with rfl | hpg
      · exact Nat.eq_zero_of_not_pos hf
      · exact h2 pg hpg

theorem runGroups_some (sched : List (List MigEvent) → List MigEvent)
    (batches : MigrationTask → List Nat) (fails : MigrationTask → Bool) :
    ∀ gs : List (Int × List MigrationTask), ∀ msg,
      (runPriorityGroups sched batches fails gs).2 = some msg →
      ∃ i, ∃ hi : i < gs.length,
        (runPriorityGroups sched batches fails gs).1
          = (gs.take (i + 1)).map (fun pg => (pg.1, sched (pg.2.map (taskTrace batches fails))))
        ∧ msg = migrationFailureMessage ((gs.get ⟨i, hi⟩).2.countP (fun t => fails t))
            (gs.get ⟨i, hi⟩).1
        ∧ 0 < (gs.get ⟨i, hi⟩).2.countP (fun t => fails t) := by
  intro gs
  induction gs with
  | nil => intro msg h; simp [runPriorityGroups] at h
  | cons hd tl ih =>
    obtain ⟨p, g⟩ := hd
    intro msg h
    by_cases hf : g.countP (fun t => fails t) > 0
    · refine ⟨0, by simp, ?_, ?_, by simpa using hf⟩
      · simp only [runPriorityGroups, if_pos hf, List.take_succ_cons, List.take_zero,
          List.map_cons, List.map_nil]
      · simp only [runPriorityGroups, if_pos hf] at h
        cases h
        rfl
    · simp only [runPriorityGroups, if_neg hf] at h
      rcases ih msg h with ⟨i, hi, h1, h2, h3⟩
      refine ⟨i + 1, by simpa using Nat.succ_lt_succ hi, ?_, by simpa using h2,
        by simpa using h3⟩
      simp only [runPriorityGroups, if_neg hf, List.take_succ_cons, List.map_cons]
      rw [h1]

/-- C1: the orchestrator groups tasks by priority and runs the groups
strictly sequentially in ascending priority order.  For every environment
(each task's batches and failure outcome) and every within-group
interleaving (`sched`, constrained to a permutation of the group's task
events), the run is a list of per-group trace segments such that: the
segment priorities ascend strictly; each segment consists exactly of its
own group's task events, including every task's settlement — so no batch of
a later group begins before every task of each earlier group has settled;
with no failure every group runs; and when a group has failures the run
stops right after that group's segment with the terminal error naming the
number of failed tasks, and no later-priority group contributes any
segment. -/
theorem orchestrator_priority_groups_sequential
    (migrations : List MigrationTask) (batches : MigrationTask → List Nat)
    (fails : MigrationTask → Bool) (sched : List (List MigEvent) → List MigEvent)
    (hsched : ∀ ls : List (List MigEvent), List.Perm (sched ls) ls.flatten) :
    List.Chain' (· < ·) ((groupMigrationsByPriority migrations).map Prod.fst)
    ∧ (∀ t ∈ migrations,
        (taskPriority t, migrations.filter (fun u => taskPriority u == taskPriority t))
          ∈ groupMigrationsByPriority migrations)
    ∧ List.Chain' (· < ·)
        ((processMigrationsByPriorityGroups sched batches fails migrations).1.map Prod.fst)
    ∧ (∀ seg ∈ (processMigrationsByPriorityGroups sched batches fails migrations).1,
        List.Perm seg.2
          (((migrations.filter (fun u => taskPriority u == seg.1)).map
            (taskTrace batches fails)).flatten))
    ∧ (∀ seg ∈ (processMigrationsByPriorityGroups sched batches fails migrations).1,
        ∀ t ∈ migrations, taskPriority t = seg.1 →
          MigEvent.settled t.targetTable (fails t) ∈ seg.2)
    ∧ ((processMigrationsByPriorityGroups sched batches fails migrations).2 = none →
        (processMigrationsByPriorityGroups sched batches fails migrations).1.map Prod.fst
          = (groupMigrationsByPriority migrations).map Prod.fst
        ∧ ∀ pg ∈ groupMigrationsByPriority migrations,
            pg.2.countP (fun t => fails t) = 0)
    ∧ (∀ msg,
        (processMigrationsByPriorityGroups sched batches fails migrations).2 = some msg →
        ∃ i, ∃ hi : i < (groupMigrationsByPriority migrations).length,
          (processMigrationsByPriorityGroups sched batches fails migrations).1
            = ((groupMigrationsByPriority migrations).take (i + 1)).map
                (fun pg => (pg.1, sched (pg.2.map (taskTrace batches fails))))
          ∧ msg = migrationFailureMessage
              (((groupMigrationsByPriority migrations).get ⟨i, hi⟩).2.countP
                (fun t => fails t))
              ((groupMigrationsByPriority migrations).get ⟨i, hi⟩).1
          ∧ 0 < ((groupMigrationsByPriority migrations).get ⟨i, hi⟩).2.countP
              (fun t => fails t)
          ∧ ∀ j, ∀ hj : j < (groupMigrationsByPriority migrations).length, i < j →
              ((groupMigrationsByPriority migrations).get ⟨j, hj⟩).1
                ∉ (processMigrationsByPriorityGroups sched batches fails migrations).1.map
                    Prod.fst) := by
  have hchain : List.Chain' (· < ·) ((groupMigrationsByPriority migrations).map Prod.fst) := by
    rw [groups_map_fst]
    exact (sortedPriorities_pairwise_lt migrations).chain'
  have hsegPerm : ∀ seg ∈ (processMigrationsByPriorityGroups sched batches fails migrations).1,
      List.Perm seg.2
        (((migrations.filter (fun u => taskPriority u == seg.1)).map
          (taskTrace batches fails)).flatten) := by
    intro seg hseg
    rcases runGroups_mem sched batches fails _ seg hseg with ⟨g, hg, hs⟩
    rcases groups_mem_iff.mp hg with ⟨_, rfl⟩
    rw [hs]
    exact hsched _
  refine ⟨hchain, ?_, ?_, hsegPerm, ?_, ?_, ?_⟩
  · intro t ht
    exact groups_mem_iff.mpr
      ⟨mem_sortedPriorities.mpr (List.mem_map_of_mem _ ht), rfl⟩
  · exact List.Chain'.prefix hchain
      (runGroups_fst_front sched batches fails (groupMigrationsByPriority migrations))
  · intro seg hseg t ht hp
    have hperm := hsegPerm seg hseg
    rw [hperm.mem_iff]
    refine List.mem_flatten.mpr ⟨taskTrace batches fails t, ?_, ?_⟩
    · exact List.mem_map_of_mem _ (List.mem_filter.mpr ⟨ht, by simp [hp]⟩)
    · simp [taskTrace]
  · intro h
    rcases runGroups_none sched batches fails (groupMigrationsByPriority migrations) h
      with ⟨h1, h2⟩
    refine ⟨?_, h2⟩
    show List.map Prod.fst
      (runPriorityGroups sched batches fails (groupMigrationsByPriority migrations)).1 = _
    rw [h1, List.map_map]
    exact List.map_congr_left fun pg _ => rfl
  · intro msg h
    rcases runGroups_some sched batches fails (groupMigrationsByPriority migrations) msg h
      with ⟨i, hi, h1, h2, h3⟩
    refine ⟨i, hi, h1, h2, h3, ?_⟩
    intro j hj hij hmem
    have hfst : (processMigrationsByPriorityGroups sched batches fails migrations).1.map
        Prod.fst
        = ((groupMigrationsByPriority migrations).map Prod.fst).take (i + 1) := by
      show List.map Prod.fst
        (runPriorityGroups sched batches fails (groupMigrationsByPriority migrations)).1 = _
      rw [h1, List.map_map, ← List.map_take]
      exact List.map_congr_left fun pg _ => rfl
    rw [hfst] at hmem
    have hpw : ((groupMigrationsByPriority migrations).map Prod.fst).Pairwise (· < ·) := by
      rw [groups_map_fst]
      exact sortedPriorities_pairwise_lt migrations
    rcases List.getElem_of_mem hmem with ⟨m, hm, hgm⟩
    have hmlen : m < i + 1 := lt_of_lt_of_le hm (by simp [List.length_take])
    have hmj : m < j := by omega
    have hjlen : j < ((groupMigrationsByPriority migrations).map Prod.fst).length := by
      simpa using hj
    have hmlen2 : m < ((groupMigrationsByPriority migrations).map Prod.fst).length := by
      omega
    have hlt := List.pairwise_iff_getElem.mp hpw m j hmlen2 hjlen hmj
    rw [List.getElem_take] at hgm
    have hje : ((groupMigrationsByPriority migrations).map Prod.fst)[j]
        = ((groupMigrationsByPriority migrations).get ⟨j, hj⟩).1 := by
      simp
    rw [hgm, hje] at hlt
    exact lt_irrefl _ hlt

/-- C1 witness: a two-task, two-priority run with the trivial interleaving
scheduler. -/
theorem orchestrator_priority_groups_sequential_witness :
    List.Perm (List.flatten [[MigEvent.settled "A" false]])
      (List.flatten [[MigEvent.settled "A" false]])
    ∧ List.Chain' (· < ·)
        ((processMigrationsByPriorityGroups List.flatten (fun _ => [0]) (fun _ => false)
          [⟨"q1", "A", some 1, none, none, none, none⟩,
           ⟨"q2", "B", some 2, none, none, none, none⟩]).1.map Prod.fst) := by
  refine ⟨List.Perm.refl _, ?_⟩
  exact (orchestrator_priority_groups_sequential
    [⟨"q1", "A", some 1, none, none, none, none⟩,
     ⟨"q2", "B", some 2, none, none, none, none⟩]
    (fun _ => [0]) (fun _ => false) List.flatten
    (fun ls => List.Perm.refl _)).2.2.1

end Migrator
